import Mathlib

set_option linter.unusedVariables false

/-!
Verification of the endless-runner game simulation
(`endless_runner.py`, 05-13-25 variant; the parallax wrap of the
`python-endless-runner-main` variant is embedded separately as
`updateParallaxV2`).

The simulation core is embedded shallowly:

* Python floats are modelled as exact rationals (`ℚ`), Python ints as `ℤ`.
* `int(x)` (truncation toward zero) is `pyTrunc`; float `%` is `pyFmod`.
* External collaborators are parameters: sprite/image dimensions
  (`runW`, `jumpW`, `obsW`, `obsH`, `layerW`) come from asset files, the
  pixel-mask overlap test (`collide`) is pygame's `collide_mask`, and
  `random.choice` draws are an oracle stream `rng : ℕ → ℕ` (the chosen
  index is `draw % number of variants`).
* Rendering, audio and the pygame clock are external; only their inputs
  (`dt`, events) and the state they read are modelled.
-/

/-! ## Constants (from the `# --- Constants ---` block of the source) -/

def GAME_WIDTH : ℚ := 800
def GAME_HEIGHT : ℚ := 432
def FPS : ℚ := 60
def PLAYER_START_X : ℚ := 25
def PLAYER_HEIGHT : ℚ := 150
def PLAYER_START_HEALTH : ℤ := 3
def PLAYER_JUMP_VELOCITY : ℚ := -4
def PLAYER_GRAVITY : ℚ := 0.2
def PLAYER_LAND_Y : ℚ := GAME_HEIGHT - PLAYER_HEIGHT
def PLAYER_ANIMATION_SPEED : ℚ := 0.2
def PLAYER_INVINCIBILITY_DURATION : ℤ := 60
def OBSTACLE_TYPES : List String := ["rock1", "rock2", "rock3", "spikes"]
def OBSTACLE_SPAWN_OFFSET_MIN : ℚ := 0
def OBSTACLE_SPAWN_OFFSET_MAX : ℚ := 200
def STARTING_SPEED : ℚ := 5
def MAX_SPEED : ℚ := 13
def SPEED_INCREASE_INTERVAL : ℤ := 4
def SPEED_INCREASE_AMOUNT : ℚ := 0.4
def VOLUME_STEP : ℚ := 0.1

/-- Python `int(q)`: truncation toward zero. -/
def pyTrunc (q : ℚ) : ℤ := if 0 ≤ q then ⌊q⌋ else ⌈q⌉

/-- Python float `%` (sign follows the divisor; for positive divisor the
result lies in `[0, b)`). -/
def pyFmod (a b : ℚ) : ℚ := a - b * ⌊a / b⌋

/-! ## Player (`class Player`) -/

inductive PAction
  | running
  | jumping
deriving DecidableEq, Repr

structure Player where
  x : ℚ
  y : ℚ
  velY : ℚ
  action : PAction
  health : ℤ
  invincibilityFrame : ℤ
  runningSpriteIndex : ℚ
  jumpingSpriteIndex : ℚ
deriving DecidableEq, Repr

/-- `Player.__init__`: fixed x, on the ground, running, full health.
Both animation lists carry 8 frames (`load_animation_frames(..., 8, ...)`,
with a guaranteed placeholder on failure, so they are never empty). -/
def Player.init : Player :=
  { x := PLAYER_START_X, y := PLAYER_LAND_Y, velY := 0, action := PAction.running,
    health := PLAYER_START_HEALTH, invincibilityFrame := 0,
    runningSpriteIndex := 0, jumpingSpriteIndex := 0 }

/-- `Player.update(dt)`.  Gravity and animation advance are per-call
(not Δt-scaled) in the source; `dt` is accepted and unused, as there.
The source's early return for empty sprite lists cannot fire (8 frames
always load, with placeholders on failure). -/
def Player.update (p : Player) (dt : ℚ) : Player :=
  let p1 :=
    if p.action = PAction.jumping then
      let y1 := p.y + p.velY
      let v1 := p.velY + PLAYER_GRAVITY
      if PLAYER_LAND_Y ≤ y1 then
        { p with y := PLAYER_LAND_Y, action := PAction.running, velY := 0 }
      else
        { p with y := y1, velY := v1 }
    else
      if p.y < PLAYER_LAND_Y then { p with y := PLAYER_LAND_Y } else p
  let p2 :=
    if p1.action = PAction.running then
      { p1 with runningSpriteIndex :=
          pyFmod (p1.runningSpriteIndex + PLAYER_ANIMATION_SPEED) 8 }
    else
      { p1 with jumpingSpriteIndex :=
          pyFmod (p1.jumpingSpriteIndex + PLAYER_ANIMATION_SPEED) 8 }
  if 0 < p2.invincibilityFrame then
    { p2 with invincibilityFrame := p2.invincibilityFrame - 1 }
  else p2

/-- `Player.jump()`. -/
def Player.jump (p : Player) : Player :=
  if p.action = PAction.running then
    { p with
      action := PAction.jumping
      velY := PLAYER_JUMP_VELOCITY
      jumpingSpriteIndex := 0 }
  else p

/-- The frame index the player currently shows:
`index = int(cur); index = max(0, min(index, len - 1))` with `len = 8`. -/
def Player.frameIndex (p : Player) : ℕ :=
  (max 0 (min (pyTrunc (if p.action = PAction.running then
      p.runningSpriteIndex else p.jumpingSpriteIndex)) 7)).toNat

/-! ## Obstacle (`class Obstacle`)

`obsW v` / `obsH v` are the pixel width/height of obstacle image `v`
(four images, one per entry of `OBSTACLE_TYPES`; the loader always yields
a surface, placeholder included, so the list has length 4). -/

structure Obstacle where
  x : ℚ
  y : ℚ
  variant : ℕ
  gameSpeed : ℚ
deriving DecidableEq, Repr

/-- `Obstacle.__init__(game_speed)`: random image (`draw` is the oracle for
`random.choice`), placed at `x = GAME_WIDTH`, grounded. -/
def Obstacle.init (obsH : ℕ → ℤ) (gameSpeed : ℚ) (draw : ℕ) : Obstacle :=
  let v := draw % OBSTACLE_TYPES.length
  { x := GAME_WIDTH, y := GAME_HEIGHT - (obsH v : ℚ), variant := v,
    gameSpeed := gameSpeed }

/-- `Obstacle.update(dt)`: `self.x -= self.game_speed * dt * FPS`. -/
def Obstacle.update (o : Obstacle) (dt : ℚ) : Obstacle :=
  { o with x := o.x - o.gameSpeed * dt * FPS }

/-- `self.rect.x = int(self.x)` (also the integral topleft at spawn). -/
def Obstacle.rectX (o : Obstacle) : ℤ := pyTrunc o.x

/-- `self.rect.right`: left edge plus the current image's width. -/
def Obstacle.rectRight (obsW : ℕ → ℤ) (o : Obstacle) : ℤ :=
  o.rectX + obsW o.variant

/-! ## Parallax scrolling -/

/-- `update_parallax` of the 05-13-25 variant: per layer `i`,
`scroll_amount = (i + 10) * current_speed * 3 * dt`; subtract, and wrap by
adding the layer width once when the offset has fallen to `-width` or
below.  `layerWidths` are the pixel widths of `background_layers`. -/
def updateParallax (offsets : List ℚ) (layerWidths : List ℤ)
    (currentSpeed dt : ℚ) : List ℚ :=
  List.ofFn (fun i : Fin layerWidths.length =>
    if h : (i : ℕ) < offsets.length then
      let scrollAmount := ((i : ℕ) + 10 : ℚ) * currentSpeed * 3 * dt
      let layerWidth := layerWidths.get i
      let newOffset := offsets.get ⟨i, h⟩ - scrollAmount
      if newOffset ≤ -(layerWidth : ℚ) then newOffset + (layerWidth : ℚ)
      else newOffset
    else 0)

/-- `update_parallax` of the `python-endless-runner-main` variant:
`scroll_amount = (i + 1) * current_speed * 0.5 * dt`, and the offset is
reset to `0` outright when its magnitude exceeds the layer width. -/
def updateParallaxV2 (offsets : List ℚ) (layerWidths : List ℤ)
    (currentSpeed dt : ℚ) : List ℚ :=
  List.ofFn (fun i : Fin layerWidths.length =>
    if h : (i : ℕ) < offsets.length then
      let scrollAmount := ((i : ℕ) + 1 : ℚ) * currentSpeed * 0.5 * dt
      let newOffset := offsets.get ⟨i, h⟩ - scrollAmount
      if (layerWidths.get i : ℚ) < |newOffset| then 0 else newOffset
    else 0)

/-! ## Game mode, events, and the session state

`Assets` bundles the external collaborators: pixel dimensions of loaded
images, the pixel-mask overlap test, and whether the music files loaded
(`music_paths` nonempty). -/

inductive GameMode
  | mainMenu
  | instructions
  | settings
  | playing
  | paused
  | gameOver
deriving DecidableEq, Repr

/-- A discrete input event, abstracted to the button region (of the screen
that consumes it) a mouse click lands in, per the input-collaborator
contract; key events carry the key. -/
inductive GEvent
  | keySpace
  | keyEscape
  | keyOther
  | clickStart
  | clickHowTo
  | clickSettings
  | clickQuit
  | clickBack
  | clickVolMinus
  | clickVolPlus
  | clickTrack0
  | clickTrack1
  | clickResume
  | clickMenu
  | clickRetry
  | clickNone
  | quitEvent
deriving DecidableEq, Repr

structure Assets where
  layerW : List ℤ
  obsW : ℕ → ℤ
  obsH : ℕ → ℤ
  runW : ℕ → ℤ
  jumpW : ℕ → ℤ
  collideMask : Player → Obstacle → Bool
  musicOk : Bool

/-- The module-level mutable game state of the source. -/
structure GState where
  mode : GameMode
  score : ℤ
  speed : ℚ
  player : Player
  obstacle : Obstacle
  parallaxOffsets : List ℚ
  musicVolume : ℚ
  currentTrackIndex : ℕ
  quitFlag : Bool
deriving DecidableEq

/-- Width of the player's current frame (its `rect` width). -/
def playerRectW (A : Assets) (p : Player) : ℤ :=
  (if p.action = PAction.running then A.runW else A.jumpW) p.frameIndex

/-- `reset_game()`: fresh player and obstacle, score 0, starting speed,
zero parallax offsets (heart animation and the redundant
`player.invincibility_frame = 0` are rendering-state / already 0). -/
def resetGame (A : Assets) (g : GState) (draw : ℕ) : GState :=
  { g with
    score := 0
    speed := STARTING_SPEED
    player := Player.init
    obstacle := Obstacle.init A.obsH STARTING_SPEED draw
    parallaxOffsets := List.replicate A.layerW.length 0 }

/-! ## `handle_playing`, split into its sequential blocks -/

/-- Event block of `handle_playing`: SPACE jumps, ESC pauses (the rest of
the frame still runs). -/
def playEvent (g : GState) (e : GEvent) : GState :=
  match e with
  | GEvent.keySpace => { g with player := g.player.jump }
  | GEvent.keyEscape => { g with mode := GameMode.paused }
  | _ => g

def playEvents (g : GState) (ev : List GEvent) : GState :=
  ev.foldl playEvent g

/-- Update block: `player.update(dt)`, then `obstacle.update(dt)` AND
`obstacles_group.update(dt)` — the single active obstacle sits in the
group, so it is moved twice per frame — then `update_parallax`. -/
def playPhys (A : Assets) (g : GState) (dt : ℚ) : GState :=
  { g with
    player := g.player.update dt
    obstacle := (g.obstacle.update dt).update dt
    parallaxOffsets := updateParallax g.parallaxOffsets A.layerW g.speed dt }

/-- Pass-through block: when the obstacle's rect is fully off-screen left,
award a point, possibly raise the speed, and respawn a fresh obstacle
(`Obstacle(speed)`) at the new speed. -/
def playScore (A : Assets) (g : GState) (draw : ℕ) : GState :=
  if g.obstacle.rectRight A.obsW < 0 then
    let sc := g.score + 1
    let sp :=
      if sc % SPEED_INCREASE_INTERVAL = 0 ∧ g.speed < MAX_SPEED then
        min MAX_SPEED (g.speed + SPEED_INCREASE_AMOUNT)
      else g.speed
    { g with
      score := sc
      speed := sp
      obstacle := Obstacle.init A.obsH sp draw }
  else g

/-- Collision block: only when `invincibility_frame <= 0`; on mask overlap
damage the player, start invincibility, respawn the obstacle, and go to
game over when health is exhausted (music fadeout is external). -/
def playCollide (A : Assets) (g : GState) (draw : ℕ) : GState :=
  if g.player.invincibilityFrame ≤ 0 then
    if A.collideMask g.player g.obstacle then
      let p :=
        { g.player with
          health := g.player.health - 1
          invincibilityFrame := PLAYER_INVINCIBILITY_DURATION }
      let g3 :=
        { g with
          player := p
          obstacle := Obstacle.init A.obsH g.speed draw }
      if p.health ≤ 0 then { g3 with mode := GameMode.gameOver } else g3
    else g
  else g

/-- `handle_playing` up to (and including) the pass-through block. -/
def playPre (A : Assets) (g : GState) (ev : List GEvent) (dt : ℚ)
    (draw : ℕ) : GState :=
  playScore A (playPhys A (playEvents g ev) dt) draw

/-- `handle_playing(events, dt)` (drawing calls are external).  `rng 0` and
`rng 1` are the oracle draws for the two possible respawns this frame. -/
def handlePlaying (A : Assets) (g : GState) (ev : List GEvent) (dt : ℚ)
    (rng : ℕ → ℕ) : GState :=
  playCollide A (playPre A g ev dt (rng 0)) (rng 1)

/-! ## The other state handlers -/

/-- One event of `handle_main_menu`; the second component counts the
oracle draws consumed by `reset_game`. -/
def mainMenuStep (A : Assets) (rng : ℕ → ℕ) (s : GState × ℕ)
    (e : GEvent) : GState × ℕ :=
  match e with
  | GEvent.clickStart =>
      ({ resetGame A s.1 (rng s.2) with mode := GameMode.playing }, s.2 + 1)
  | GEvent.clickHowTo => ({ s.1 with mode := GameMode.instructions }, s.2)
  | GEvent.clickSettings => ({ s.1 with mode := GameMode.settings }, s.2)
  | GEvent.clickQuit => ({ s.1 with quitFlag := true }, s.2)
  | _ => s

def handleMainMenu (A : Assets) (g : GState) (ev : List GEvent)
    (rng : ℕ → ℕ) : GState :=
  (ev.foldl (mainMenuStep A rng) (g, 0)).1

def instructionsStep (g : GState) (e : GEvent) : GState :=
  match e with
  | GEvent.clickBack => { g with mode := GameMode.mainMenu }
  | GEvent.keyEscape => { g with mode := GameMode.mainMenu }
  | _ => g

def handleInstructions (g : GState) (ev : List GEvent) : GState :=
  ev.foldl instructionsStep g

/-- `switch_music_track(i)`: only acts when the index changes and the
music files loaded. -/
def switchMusicTrack (musicOk : Bool) (g : GState) (i : ℕ) : GState :=
  if i ≠ g.currentTrackIndex ∧ musicOk then { g with currentTrackIndex := i }
  else g

def settingsStep (musicOk : Bool) (g : GState) (e : GEvent) : GState :=
  match e with
  | GEvent.clickBack => { g with mode := GameMode.mainMenu }
  | GEvent.clickVolMinus =>
      { g with musicVolume := max 0 (g.musicVolume - VOLUME_STEP) }
  | GEvent.clickVolPlus =>
      { g with musicVolume := min 1 (g.musicVolume + VOLUME_STEP) }
  | GEvent.clickTrack0 => switchMusicTrack musicOk g 0
  | GEvent.clickTrack1 => switchMusicTrack musicOk g 1
  | GEvent.keyEscape => { g with mode := GameMode.mainMenu }
  | _ => g

def handleSettings (A : Assets) (g : GState) (ev : List GEvent) : GState :=
  ev.foldl (settingsStep A.musicOk) g

def pauseStep (g : GState) (e : GEvent) : GState :=
  match e with
  | GEvent.keyEscape => { g with mode := GameMode.playing }
  | GEvent.clickResume => { g with mode := GameMode.playing }
  | GEvent.clickMenu => { g with mode := GameMode.mainMenu }
  | GEvent.clickQuit => { g with quitFlag := true }
  | _ => g

def handlePause (g : GState) (ev : List GEvent) : GState :=
  ev.foldl pauseStep g

def gameOverStep (A : Assets) (rng : ℕ → ℕ) (s : GState × ℕ)
    (e : GEvent) : GState × ℕ :=
  match e with
  | GEvent.clickRetry =>
      ({ resetGame A s.1 (rng s.2) with mode := GameMode.playing }, s.2 + 1)
  | GEvent.clickMenu => ({ s.1 with mode := GameMode.mainMenu }, s.2)
  | _ => s

def handleGameOver (A : Assets) (g : GState) (ev : List GEvent)
    (rng : ℕ → ℕ) : GState :=
  (ev.foldl (gameOverStep A rng) (g, 0)).1

def isQuitEvent (e : GEvent) : Bool :=
  match e with
  | GEvent.quitEvent => true
  | _ => false

/-- One iteration of the main loop: scan for `QUIT`, then dispatch on the
current mode (only the active state's handler runs). -/
def topStep (A : Assets) (g : GState) (ev : List GEvent) (dt : ℚ)
    (rng : ℕ → ℕ) : GState :=
  let g1 := if ev.any isQuitEvent then { g with quitFlag := true } else g
  match g1.mode with
  | GameMode.mainMenu => handleMainMenu A g1 ev rng
  | GameMode.instructions => handleInstructions g1 ev
  | GameMode.settings => handleSettings A g1 ev
  | GameMode.playing => handlePlaying A g1 ev dt rng
  | GameMode.paused => handlePause g1 ev
  | GameMode.gameOver => handleGameOver A g1 ev rng

/-! ## Reachability -/

/-- States reachable in a game session started by `reset_game()` (the
callers of `reset_game` set the mode to playing immediately), closed
under whole frames of the main loop with nonnegative `dt`. -/
inductive Reachable (A : Assets) : GState → Prop
  | start (g0 : GState) (draw : ℕ) :
      Reachable A { resetGame A g0 draw with mode := GameMode.playing }
  | step (g : GState) (ev : List GEvent) (dt : ℚ) (rng : ℕ → ℕ) :
      Reachable A g → 0 ≤ dt → Reachable A (topStep A g ev dt rng)

/-- States reachable within a single playing session: from `reset_game()`
under `handle_playing` frames only (no intervening reset). -/
inductive PReach (A : Assets) : GState → Prop
  | start (g0 : GState) (draw : ℕ) :
      PReach A { resetGame A g0 draw with mode := GameMode.playing }
  | step (g : GState) (ev : List GEvent) (dt : ℚ) (rng : ℕ → ℕ) :
      PReach A g → PReach A (handlePlaying A g ev dt rng)

/-! ## Derived definitions used by the verification -/

/-- A concrete asset environment whose mask test always reports overlap. -/
def collideAssets : Assets :=
  { layerW := [], obsW := fun _ => 50, obsH := fun _ => 50,
    runW := fun _ => 50, jumpW := fun _ => 50,
    collideMask := fun _ _ => true, musicOk := true }

/-- A concrete playing state whose player is invincible for 61 frames. -/
def invPlayerState : GState :=
  { mode := GameMode.playing, score := 0, speed := STARTING_SPEED,
    player := { Player.init with invincibilityFrame := 61 },
    obstacle := Obstacle.init (fun _ => 50) STARTING_SPEED 0,
    parallaxOffsets := [], musicVolume := 0.7, currentTrackIndex := 0,
    quitFlag := false }

/-- A concrete asset environment whose mask test never reports overlap. -/
def noCollideAssets : Assets :=
  { layerW := [], obsW := fun _ => 50, obsH := fun _ => 50,
    runW := fun _ => 50, jumpW := fun _ => 50,
    collideMask := fun _ _ => false, musicOk := true }

/-- A concrete playing state whose obstacle has already left the screen
(`x = -100`), so the next frame awards a pass-through point. -/
def passGState : GState :=
  { mode := GameMode.playing, score := 0, speed := STARTING_SPEED,
    player := Player.init,
    obstacle := Obstacle.mk (-100) 382 0 5,
    parallaxOffsets := [], musicVolume := 0.7, currentTrackIndex := 0,
    quitFlag := false }

/-- Necessary horizontal-overlap condition for a pygame mask collision:
the masks live inside the sprite rects, so overlapping masks force the
rects' x-intervals to intersect.  The player's rect sits at
`x = PLAYER_START_X` with the current frame's width. -/
def xOverlap (A : Assets) (p : Player) (o : Obstacle) : Prop :=
  PLAYER_START_X < (o.rectX : ℚ) + (A.obsW o.variant : ℚ) ∧
  (o.rectX : ℚ) < PLAYER_START_X + (playerRectW A p : ℚ)

/-- Player states reachable through `jump()` and `update()` from the
freshly-constructed player. -/
inductive PlayerReach : Player → Prop
  | init : PlayerReach Player.init
  | jump (p : Player) : PlayerReach p → PlayerReach p.jump
  | update (p : Player) (dt : ℚ) : PlayerReach p → PlayerReach (p.update dt)

/-- The inductive invariant: running means exactly on the ground, and the
player is never below the ground line (y grows downward). -/
def PlayerInv (p : Player) : Prop :=
  (p.action = PAction.running → p.y = PLAYER_LAND_Y) ∧ p.y ≤ PLAYER_LAND_Y

/-- Within a session the speed is always `STARTING_SPEED` plus at most 20
increments of `SPEED_INCREASE_AMOUNT` (the cap `MAX_SPEED` is reached at
exactly 20). -/
def SpeedInv (g : GState) : Prop :=
  ∃ k : ℕ, k ≤ 20 ∧ g.speed = STARTING_SPEED + SPEED_INCREASE_AMOUNT * k

/-- The inductive session invariant: health within `[0, 3]`, at least 1
while the game is playing or merely paused, and the invincibility timer
never negative. -/
def HealthInv (g : GState) : Prop :=
  0 ≤ g.player.health ∧ g.player.health ≤ PLAYER_START_HEALTH ∧
  ((g.mode = GameMode.playing ∨ g.mode = GameMode.paused) →
    1 ≤ g.player.health) ∧
  0 ≤ g.player.invincibilityFrame

/-- Repeated parallax updates of the 05-13-25 variant, starting from the
reset offsets (all 0); each call supplies that frame's speed and `dt`. -/
def parallaxRun (widths : List ℤ) (calls : List (ℚ × ℚ)) : List ℚ :=
  calls.foldl (fun offs c => updateParallax offs widths c.1 c.2)
    (List.replicate widths.length 0)

/-- The inductive invariant for the 05-13-25 wrap: every offset stays in
`[-width, 0]`. -/
def OffsInv (widths : List ℤ) (offs : List ℚ) : Prop :=
  offs.length = widths.length ∧
  ∀ i, i < widths.length →
    -((widths.getD i 0 : ℤ) : ℚ) ≤ offs.getD i 0 ∧ offs.getD i 0 ≤ 0


/-! ## Basic facts about the player operations -/

theorem Player.jump_health (p : Player) : p.jump.health = p.health := by
  unfold Player.jump; split <;> rfl

theorem Player.jump_invFrame (p : Player) :
    p.jump.invincibilityFrame = p.invincibilityFrame := by
  unfold Player.jump; split <;> rfl

theorem Player.jump_y (p : Player) : p.jump.y = p.y := by
  unfold Player.jump; split <;> rfl

theorem Player.update_health (p : Player) (dt : ℚ) :
    (p.update dt).health = p.health := by
  dsimp only [Player.update]
  split_ifs <;> rfl

theorem Player.update_invFrame (p : Player) (dt : ℚ) :
    (p.update dt).invincibilityFrame =
      if 0 < p.invincibilityFrame then p.invincibilityFrame - 1
      else p.invincibilityFrame := by
  dsimp only [Player.update]
  split_ifs <;> rfl

theorem Player.update_invFrame_nonneg (p : Player) (dt : ℚ)
    (h : 0 ≤ p.invincibilityFrame) : 0 ≤ (p.update dt).invincibilityFrame := by
  rw [Player.update_invFrame]; split <;> omega

/-! ## Preservation lemmas for the `handle_playing` blocks -/

theorem playEvent_score (g : GState) (e : GEvent) :
    (playEvent g e).score = g.score := by
  cases e <;> rfl

theorem playEvent_speed (g : GState) (e : GEvent) :
    (playEvent g e).speed = g.speed := by
  cases e <;> rfl

theorem playEvent_obstacle (g : GState) (e : GEvent) :
    (playEvent g e).obstacle = g.obstacle := by
  cases e <;> rfl

theorem playEvent_health (g : GState) (e : GEvent) :
    (playEvent g e).player.health = g.player.health := by
  cases e <;> simp [playEvent, Player.jump_health]

theorem playEvent_invFrame (g : GState) (e : GEvent) :
    (playEvent g e).player.invincibilityFrame =
      g.player.invincibilityFrame := by
  cases e <;> simp [playEvent, Player.jump_invFrame]

theorem playEvent_mode (g : GState) (e : GEvent) :
    (playEvent g e).mode = g.mode ∨ (playEvent g e).mode = GameMode.paused := by
  cases e <;> simp [playEvent]

theorem playEvents_score (ev : List GEvent) :
    ∀ g : GState, (playEvents g ev).score = g.score := by
  induction ev with
  | nil => intro g; rfl
  | cons e ev ih =>
      intro g
      show (playEvents (playEvent g e) ev).score = g.score
      rw [ih, playEvent_score]

theorem playEvents_speed (ev : List GEvent) :
    ∀ g : GState, (playEvents g ev).speed = g.speed := by
  induction ev with
  | nil => intro g; rfl
  | cons e ev ih =>
      intro g
      show (playEvents (playEvent g e) ev).speed = g.speed
      rw [ih, playEvent_speed]

theorem playEvents_obstacle (ev : List GEvent) :
    ∀ g : GState, (playEvents g ev).obstacle = g.obstacle := by
  induction ev with
  | nil => intro g; rfl
  | cons e ev ih =>
      intro g
      show (playEvents (playEvent g e) ev).obstacle = g.obstacle
      rw [ih, playEvent_obstacle]

theorem playEvents_health (ev : List GEvent) :
    ∀ g : GState, (playEvents g ev).player.health = g.player.health := by
  induction ev with
  | nil => intro g; rfl
  | cons e ev ih =>
      intro g
      show (playEvents (playEvent g e) ev).player.health = g.player.health
      rw [ih, playEvent_health]

theorem playEvents_invFrame (ev : List GEvent) :
    ∀ g : GState, (playEvents g ev).player.invincibilityFrame =
      g.player.invincibilityFrame := by
  induction ev with
  | nil => intro g; rfl
  | cons e ev ih =>
      intro g
      show (playEvents (playEvent g e) ev).player.invincibilityFrame =
        g.player.invincibilityFrame
      rw [ih, playEvent_invFrame]

theorem playPhys_fields (A : Assets) (g : GState) (dt : ℚ) :
    (playPhys A g dt).score = g.score ∧
    (playPhys A g dt).speed = g.speed ∧
    (playPhys A g dt).mode = g.mode ∧
    (playPhys A g dt).player = g.player.update dt ∧
    (playPhys A g dt).obstacle = (g.obstacle.update dt).update dt := by
  refine ⟨rfl, rfl, rfl, rfl, rfl⟩

theorem playScore_player (A : Assets) (g : GState) (d : ℕ) :
    (playScore A g d).player = g.player := by
  unfold playScore; split <;> rfl

theorem playScore_mode (A : Assets) (g : GState) (d : ℕ) :
    (playScore A g d).mode = g.mode := by
  unfold playScore; split <;> rfl

theorem playScore_score (A : Assets) (g : GState) (d : ℕ) :
    (playScore A g d).score =
      if g.obstacle.rectRight A.obsW < 0 then g.score + 1 else g.score := by
  unfold playScore; split <;> rfl

theorem playScore_speed (A : Assets) (g : GState) (d : ℕ) :
    (playScore A g d).speed =
      if g.obstacle.rectRight A.obsW < 0 ∧
          ((g.score + 1) % SPEED_INCREASE_INTERVAL = 0 ∧ g.speed < MAX_SPEED)
      then min MAX_SPEED (g.speed + SPEED_INCREASE_AMOUNT)
      else g.speed := by
  unfold playScore
  split_ifs with h1 h2 h3 <;> simp_all

theorem playCollide_score (A : Assets) (g : GState) (d : ℕ) :
    (playCollide A g d).score = g.score := by
  dsimp only [playCollide]
  split_ifs <;> rfl

theorem playCollide_speed (A : Assets) (g : GState) (d : ℕ) :
    (playCollide A g d).speed = g.speed := by
  dsimp only [playCollide]
  split_ifs <;> rfl

theorem playCollide_health (A : Assets) (g : GState) (d : ℕ) :
    (playCollide A g d).player.health =
      if g.player.invincibilityFrame ≤ 0 ∧
          A.collideMask g.player g.obstacle = true
      then g.player.health - 1 else g.player.health := by
  dsimp only [playCollide]
  split_ifs <;> simp_all

theorem playCollide_invFrame (A : Assets) (g : GState) (d : ℕ) :
    (playCollide A g d).player.invincibilityFrame =
      if g.player.invincibilityFrame ≤ 0 ∧
          A.collideMask g.player g.obstacle = true
      then PLAYER_INVINCIBILITY_DURATION
      else g.player.invincibilityFrame := by
  dsimp only [playCollide]
  split_ifs <;> simp_all

theorem playCollide_obstacle (A : Assets) (g : GState) (d : ℕ) :
    (playCollide A g d).obstacle =
      if g.player.invincibilityFrame ≤ 0 ∧
          A.collideMask g.player g.obstacle = true
      then Obstacle.init A.obsH g.speed d
      else g.obstacle := by
  dsimp only [playCollide]
  split_ifs <;> simp_all

theorem playCollide_mode (A : Assets) (g : GState) (d : ℕ) :
    (playCollide A g d).mode =
      if g.player.invincibilityFrame ≤ 0 ∧
          A.collideMask g.player g.obstacle = true ∧
          g.player.health - 1 ≤ 0
      then GameMode.gameOver
      else g.mode := by
  dsimp only [playCollide]
  split_ifs <;> simp_all

theorem playCollide_skip (A : Assets) (g : GState) (d : ℕ)
    (h : 0 < g.player.invincibilityFrame) : playCollide A g d = g := by
  unfold playCollide
  rw [if_neg (by omega)]

/-! ## Characterizations of `handle_playing` as a whole -/

theorem playPre_player (A : Assets) (g : GState) (ev : List GEvent) (dt : ℚ)
    (d : ℕ) : (playPre A g ev dt d).player = (playEvents g ev).player.update dt := by
  unfold playPre
  rw [playScore_player]
  rfl

theorem playPre_health (A : Assets) (g : GState) (ev : List GEvent) (dt : ℚ)
    (d : ℕ) : (playPre A g ev dt d).player.health = g.player.health := by
  rw [playPre_player, Player.update_health, playEvents_health]

theorem playPre_invFrame (A : Assets) (g : GState) (ev : List GEvent) (dt : ℚ)
    (d : ℕ) : (playPre A g ev dt d).player.invincibilityFrame =
      if 0 < g.player.invincibilityFrame then g.player.invincibilityFrame - 1
      else g.player.invincibilityFrame := by
  rw [playPre_player, Player.update_invFrame, playEvents_invFrame]

theorem playPre_score (A : Assets) (g : GState) (ev : List GEvent) (dt : ℚ)
    (d : ℕ) : (playPre A g ev dt d).score =
      if ((g.obstacle.update dt).update dt).rectRight A.obsW < 0
      then g.score + 1 else g.score := by
  unfold playPre
  rw [playScore_score]
  have hob : (playPhys A (playEvents g ev) dt).obstacle =
      (g.obstacle.update dt).update dt := by
    rw [(playPhys_fields A (playEvents g ev) dt).2.2.2.2, playEvents_obstacle]
  rw [hob]
  have hsc : (playPhys A (playEvents g ev) dt).score = g.score := by
    rw [(playPhys_fields A (playEvents g ev) dt).1, playEvents_score]
  rw [hsc]

theorem playPre_speed (A : Assets) (g : GState) (ev : List GEvent) (dt : ℚ)
    (d : ℕ) : (playPre A g ev dt d).speed =
      if ((g.obstacle.update dt).update dt).rectRight A.obsW < 0 ∧
          ((g.score + 1) % SPEED_INCREASE_INTERVAL = 0 ∧ g.speed < MAX_SPEED)
      then min MAX_SPEED (g.speed + SPEED_INCREASE_AMOUNT)
      else g.speed := by
  unfold playPre
  rw [playScore_speed]
  have hob : (playPhys A (playEvents g ev) dt).obstacle =
      (g.obstacle.update dt).update dt := by
    rw [(playPhys_fields A (playEvents g ev) dt).2.2.2.2, playEvents_obstacle]
  have hsc : (playPhys A (playEvents g ev) dt).score = g.score := by
    rw [(playPhys_fields A (playEvents g ev) dt).1, playEvents_score]
  have hsp : (playPhys A (playEvents g ev) dt).speed = g.speed := by
    rw [(playPhys_fields A (playEvents g ev) dt).2.1, playEvents_speed]
  rw [hob, hsc, hsp]

theorem playPre_obstacle (A : Assets) (g : GState) (ev : List GEvent) (dt : ℚ)
    (d : ℕ) : (playPre A g ev dt d).obstacle =
      if ((g.obstacle.update dt).update dt).rectRight A.obsW < 0
      then Obstacle.init A.obsH (playPre A g ev dt d).speed d
      else (g.obstacle.update dt).update dt := by
  have hob : (playPhys A (playEvents g ev) dt).obstacle =
      (g.obstacle.update dt).update dt := by
    rw [(playPhys_fields A (playEvents g ev) dt).2.2.2.2, playEvents_obstacle]
  unfold playPre playScore
  rw [hob]
  split_ifs with h1 <;> simp_all

theorem handlePlaying_score (A : Assets) (g : GState) (ev : List GEvent)
    (dt : ℚ) (rng : ℕ → ℕ) : (handlePlaying A g ev dt rng).score =
      if ((g.obstacle.update dt).update dt).rectRight A.obsW < 0
      then g.score + 1 else g.score := by
  unfold handlePlaying
  rw [playCollide_score, playPre_score]

theorem handlePlaying_speed (A : Assets) (g : GState) (ev : List GEvent)
    (dt : ℚ) (rng : ℕ → ℕ) : (handlePlaying A g ev dt rng).speed =
      if ((g.obstacle.update dt).update dt).rectRight A.obsW < 0 ∧
          ((g.score + 1) % SPEED_INCREASE_INTERVAL = 0 ∧ g.speed < MAX_SPEED)
      then min MAX_SPEED (g.speed + SPEED_INCREASE_AMOUNT)
      else g.speed := by
  unfold handlePlaying
  rw [playCollide_speed, playPre_speed]

theorem handlePlaying_health (A : Assets) (g : GState) (ev : List GEvent)
    (dt : ℚ) (rng : ℕ → ℕ) : (handlePlaying A g ev dt rng).player.health =
      if (playPre A g ev dt (rng 0)).player.invincibilityFrame ≤ 0 ∧
          A.collideMask (playPre A g ev dt (rng 0)).player
            (playPre A g ev dt (rng 0)).obstacle = true
      then g.player.health - 1 else g.player.health := by
  unfold handlePlaying
  rw [playCollide_health, playPre_health]

/-! ## Claim theorems -/

/-- Claim C3: collision damage is applied only when the invincibility
timer (as read by the resolver, after this frame's `player.update`
decrement) is 0: with the timer still positive the collision block is
skipped entirely — the state is exactly the pre-collision state and
health is unchanged even if the masks overlap — and on a mask overlap
with timer 0, health decreases by exactly 1 and the timer is set to
`PLAYER_INVINCIBILITY_DURATION` (60 frames). -/
theorem c3_invincibility_window (A : Assets) (g : GState) (ev : List GEvent)
    (dt : ℚ) (rng : ℕ → ℕ) :
    (0 < (playPre A g ev dt (rng 0)).player.invincibilityFrame →
      handlePlaying A g ev dt rng = playPre A g ev dt (rng 0) ∧
      (handlePlaying A g ev dt rng).player.health = g.player.health) ∧
    ((playPre A g ev dt (rng 0)).player.invincibilityFrame = 0 →
      A.collideMask (playPre A g ev dt (rng 0)).player
        (playPre A g ev dt (rng 0)).obstacle = true →
      (handlePlaying A g ev dt rng).player.health = g.player.health - 1 ∧
      (handlePlaying A g ev dt rng).player.invincibilityFrame =
        PLAYER_INVINCIBILITY_DURATION) := by
  constructor
  · intro h
    have hskip : handlePlaying A g ev dt rng = playPre A g ev dt (rng 0) := by
      unfold handlePlaying
      exact playCollide_skip A _ _ h
    refine ⟨hskip, ?_⟩
    rw [hskip, playPre_health]
  · intro h0 hc
    constructor
    · rw [handlePlaying_health, if_pos ⟨by omega, hc⟩]
    · unfold handlePlaying
      rw [playCollide_invFrame, if_pos ⟨by omega, hc⟩]

/-- Witness for C3 at a concrete input: invincible player (timer 61 before
the frame, 60 after the update decrement), masks always overlapping,
health untouched. -/
theorem c3_witness :
    (0 < (playPre collideAssets invPlayerState [] 0 0).player.invincibilityFrame) ∧
    (handlePlaying collideAssets invPlayerState [] 0
        (fun _ => 0)).player.health = PLAYER_START_HEALTH := by
  have hinv : (playPre collideAssets invPlayerState []
      0 0).player.invincibilityFrame = 60 := by
    rw [playPre_invFrame]
    norm_num [invPlayerState]
  have h := (c3_invincibility_window collideAssets invPlayerState [] 0
      (fun _ => 0)).1 (by rw [hinv]; norm_num)
  refine ⟨by rw [hinv]; norm_num, ?_⟩
  rw [h.2]
  rfl

/-- Claim C4: on every `handle_playing` frame the score increases by
exactly 1 precisely when the (twice-)moved obstacle's rect has passed
fully off-screen left (`rect.right < 0`), and is unchanged otherwise —
in particular a damage-causing collision leaves it unchanged, and no
other operation of the frame touches it. -/
theorem c4_score_per_frame (A : Assets) (g : GState) (ev : List GEvent)
    (dt : ℚ) (rng : ℕ → ℕ) :
    (handlePlaying A g ev dt rng).score =
      if ((g.obstacle.update dt).update dt).rectRight A.obsW < 0
      then g.score + 1 else g.score :=
  handlePlaying_score A g ev dt rng

/-- Claim C6 (corrected): with `Δt = 0` allowed, a single
`Obstacle.update(Δt)` does not strictly decrease `x`; at `Δt = 0` and
speed 5 the obstacle does not move at all. -/
theorem c6_counterexample :
    ((0:ℚ) ≤ 0 ∧ 0 < (Obstacle.mk 100 382 0 5).gameSpeed) ∧
    ¬ ((Obstacle.update (Obstacle.mk 100 382 0 5) 0).x <
        (Obstacle.mk 100 382 0 5).x) := by
  norm_num [Obstacle.update]

/-- Claim C6 (amended): for all `Δt > 0`, a single `Obstacle.update(Δt)`
strictly decreases the obstacle's x whenever its speed is positive, and
the displacement is exactly `speed * Δt * FPS` (proportional to the
obstacle's copy of the global speed and to `Δt`); at `Δt = 0` the
position is unchanged. -/
theorem c6_obstacle_moves_left (o : Obstacle) (dt : ℚ) (hdt : 0 < dt)
    (hsp : 0 < o.gameSpeed) :
    (o.update dt).x < o.x ∧
    (o.update dt).x = o.x - o.gameSpeed * dt * FPS ∧
    (o.update 0).x = o.x := by
  refine ⟨?_, rfl, ?_⟩
  · dsimp only [Obstacle.update]
    have hF : (0:ℚ) < FPS := by norm_num [FPS]
    nlinarith [mul_pos (mul_pos hsp hdt) hF]
  · dsimp only [Obstacle.update]
    ring_nf

/-- Witness for C6 (amended) at speed 5, `Δt = 1`. -/
theorem c6_witness :
    (Obstacle.update (Obstacle.mk 800 382 0 5) 1).x <
      (Obstacle.mk 800 382 0 5).x :=
  (c6_obstacle_moves_left (Obstacle.mk 800 382 0 5) 1 (by norm_num)
    (by norm_num)).1

/-- Claim C9: `jump()` while jumping is a no-op (the whole player state,
velocity and animation phase included, is unchanged); `jump()` while
running transitions to jumping, sets the vertical velocity to the
negative (upward) `PLAYER_JUMP_VELOCITY`, resets the jump animation
phase to 0, and touches nothing else. -/
theorem c9_jump_contract (p : Player) :
    (p.action = PAction.jumping → p.jump = p) ∧
    (p.action = PAction.running →
      p.jump.action = PAction.jumping ∧
      p.jump.velY = PLAYER_JUMP_VELOCITY ∧
      p.jump.velY < 0 ∧
      p.jump.jumpingSpriteIndex = 0 ∧
      p.jump.x = p.x ∧ p.jump.y = p.y ∧
      p.jump.health = p.health ∧
      p.jump.invincibilityFrame = p.invincibilityFrame ∧
      p.jump.runningSpriteIndex = p.runningSpriteIndex) := by
  constructor
  · intro h
    unfold Player.jump
    rw [if_neg (by rw [h]; exact fun hc => PAction.noConfusion hc)]
  · intro h
    unfold Player.jump
    rw [if_pos h]
    refine ⟨rfl, rfl, ?_, rfl, rfl, rfl, rfl, rfl, rfl⟩
    norm_num [PLAYER_JUMP_VELOCITY]

/-- Witness for C9: a mid-air `jump()` leaves a concrete jumping player
unchanged, and a running one gets velocity `-4` and phase 0. -/
theorem c9_witness :
    ({ Player.init with action := PAction.jumping } : Player).jump =
      { Player.init with action := PAction.jumping } ∧
    (Player.init.jump.velY = PLAYER_JUMP_VELOCITY ∧
      Player.init.jump.jumpingSpriteIndex = 0) :=
  ⟨(c9_jump_contract _).1 rfl,
   ((c9_jump_contract Player.init).2 rfl).2.1,
   ((c9_jump_contract Player.init).2 rfl).2.2.2.1⟩

theorem Obstacle.init_x (obsH : ℕ → ℤ) (sp : ℚ) (d : ℕ) :
    (Obstacle.init obsH sp d).x = GAME_WIDTH := rfl

theorem Obstacle.init_variant (obsH : ℕ → ℤ) (sp : ℚ) (d : ℕ) :
    (Obstacle.init obsH sp d).variant = d % OBSTACLE_TYPES.length := rfl

theorem Obstacle.init_gameSpeed (obsH : ℕ → ℤ) (sp : ℚ) (d : ℕ) :
    (Obstacle.init obsH sp d).gameSpeed = sp := rfl

/-- Claim C5: every respawn of the single active obstacle — by
pass-through or by collision — places it off-screen right at
`GAME_WIDTH` plus a jitter offset within the configured
`[OBSTACLE_SPAWN_OFFSET_MIN, OBSTACLE_SPAWN_OFFSET_MAX]` bounds (the
respawn path goes through `Obstacle.__init__`, whose jitter is the
degenerate 0, which lies within the bounds since the configured minimum
is 0), draws the new variant from the random oracle (every one of the
`OBSTACLE_TYPES` variants is obtainable), and copies in the current
global speed. -/
theorem c5_respawn_contract (A : Assets) (g : GState) (ev : List GEvent)
    (dt : ℚ) (rng : ℕ → ℕ) :
    (((g.obstacle.update dt).update dt).rectRight A.obsW < 0 →
      (∃ jitter : ℚ, OBSTACLE_SPAWN_OFFSET_MIN ≤ jitter ∧
        jitter ≤ OBSTACLE_SPAWN_OFFSET_MAX ∧
        (playPre A g ev dt (rng 0)).obstacle.x = GAME_WIDTH + jitter) ∧
      (playPre A g ev dt (rng 0)).obstacle.variant =
        rng 0 % OBSTACLE_TYPES.length ∧
      (playPre A g ev dt (rng 0)).obstacle.gameSpeed =
        (playPre A g ev dt (rng 0)).speed) ∧
    ((playPre A g ev dt (rng 0)).player.invincibilityFrame ≤ 0 →
      A.collideMask (playPre A g ev dt (rng 0)).player
        (playPre A g ev dt (rng 0)).obstacle = true →
      (∃ jitter : ℚ, OBSTACLE_SPAWN_OFFSET_MIN ≤ jitter ∧
        jitter ≤ OBSTACLE_SPAWN_OFFSET_MAX ∧
        (handlePlaying A g ev dt rng).obstacle.x = GAME_WIDTH + jitter) ∧
      (handlePlaying A g ev dt rng).obstacle.variant =
        rng 1 % OBSTACLE_TYPES.length ∧
      (handlePlaying A g ev dt rng).obstacle.gameSpeed =
        (handlePlaying A g ev dt rng).speed) ∧
    (∀ (sp : ℚ) (v : ℕ), v < OBSTACLE_TYPES.length →
      ∃ draw : ℕ, (Obstacle.init A.obsH sp draw).variant = v) := by
  refine ⟨?_, ?_, ?_⟩
  · intro hpass
    have hob : (playPre A g ev dt (rng 0)).obstacle =
        Obstacle.init A.obsH (playPre A g ev dt (rng 0)).speed (rng 0) := by
      rw [playPre_obstacle, if_pos hpass]
    rw [hob]
    refine ⟨⟨0, ?_, ?_, ?_⟩, rfl, rfl⟩
    · norm_num [OBSTACLE_SPAWN_OFFSET_MIN]
    · norm_num [OBSTACLE_SPAWN_OFFSET_MIN, OBSTACLE_SPAWN_OFFSET_MAX]
    · rw [Obstacle.init_x]; ring
  · intro hinv hc
    have hob : (handlePlaying A g ev dt rng).obstacle =
        Obstacle.init A.obsH (playPre A g ev dt (rng 0)).speed (rng 1) := by
      unfold handlePlaying
      rw [playCollide_obstacle, if_pos ⟨hinv, hc⟩]
    have hsp : (handlePlaying A g ev dt rng).speed =
        (playPre A g ev dt (rng 0)).speed := by
      unfold handlePlaying
      rw [playCollide_speed]
    rw [hob, hsp]
    refine ⟨⟨0, ?_, ?_, ?_⟩, rfl, rfl⟩
    · norm_num [OBSTACLE_SPAWN_OFFSET_MIN]
    · norm_num [OBSTACLE_SPAWN_OFFSET_MIN, OBSTACLE_SPAWN_OFFSET_MAX]
    · rw [Obstacle.init_x]; ring
  · intro sp v hv
    exact ⟨v, by rw [Obstacle.init_variant]; exact Nat.mod_eq_of_lt hv⟩

/-- Witness for C5: a collision respawn from a concrete overlapping state
puts the obstacle back at `GAME_WIDTH` (jitter 0) with the current
speed. -/
theorem c5_witness :
    ∃ jitter : ℚ, OBSTACLE_SPAWN_OFFSET_MIN ≤ jitter ∧
      jitter ≤ OBSTACLE_SPAWN_OFFSET_MAX ∧
      (handlePlaying collideAssets
        { mode := GameMode.playing, score := 0, speed := STARTING_SPEED,
          player := Player.init,
          obstacle := Obstacle.init (fun _ => 50) STARTING_SPEED 0,
          parallaxOffsets := [], musicVolume := 0.7, currentTrackIndex := 0,
          quitFlag := false }
        [] 0 (fun _ => 0)).obstacle.x = GAME_WIDTH + jitter := by
  refine ((c5_respawn_contract collideAssets
    { mode := GameMode.playing, score := 0, speed := STARTING_SPEED,
      player := Player.init,
      obstacle := Obstacle.init (fun _ => 50) STARTING_SPEED 0,
      parallaxOffsets := [], musicVolume := 0.7, currentTrackIndex := 0,
      quitFlag := false }
    [] 0 (fun _ => 0)).2.1 ?_ rfl).1
  rw [playPre_invFrame]
  norm_num [Player.init]

theorem pyTrunc_gameWidth : pyTrunc GAME_WIDTH = 800 := by
  norm_num [pyTrunc, GAME_WIDTH]

/-- Claim C10: within a single `handle_playing` frame, the pass-through
score award and collision damage are mutually exclusive, provided every
player frame is narrower than `GAME_WIDTH - PLAYER_START_X` and the mask
test only reports overlaps of sprites whose x-extents intersect: an
obstacle respawned by the pass-through block sits at `x = GAME_WIDTH`
and cannot overlap the player, so a frame that increments the score
leaves health alone, and a frame that changes health leaves the score
alone. -/
theorem c10_score_damage_exclusive (A : Assets) (g : GState)
    (ev : List GEvent) (dt : ℚ) (rng : ℕ → ℕ)
    (hpw : ∀ p : Player, (playerRectW A p : ℚ) < GAME_WIDTH - PLAYER_START_X)
    (hsound : ∀ p o, A.collideMask p o = true → xOverlap A p o) :
    ((handlePlaying A g ev dt rng).score = g.score + 1 →
      (handlePlaying A g ev dt rng).player.health = g.player.health) ∧
    ((handlePlaying A g ev dt rng).player.health ≠ g.player.health →
      (handlePlaying A g ev dt rng).score = g.score) := by
  have hnocol : ((g.obstacle.update dt).update dt).rectRight A.obsW < 0 →
      A.collideMask (playPre A g ev dt (rng 0)).player
        (playPre A g ev dt (rng 0)).obstacle ≠ true := by
    intro hpass hc
    have hob : (playPre A g ev dt (rng 0)).obstacle =
        Obstacle.init A.obsH (playPre A g ev dt (rng 0)).speed (rng 0) := by
      rw [playPre_obstacle, if_pos hpass]
    have hover := hsound _ _ hc
    rw [hob] at hover
    have hrx : ((Obstacle.init A.obsH (playPre A g ev dt (rng 0)).speed
        (rng 0)).rectX : ℚ) = 800 := by
      unfold Obstacle.rectX
      rw [Obstacle.init_x, pyTrunc_gameWidth]
      norm_num
    have h2 := hover.2
    rw [hrx] at h2
    have h3 := hpw (playPre A g ev dt (rng 0)).player
    rw [GAME_WIDTH, PLAYER_START_X] at h3
    rw [PLAYER_START_X] at h2
    linarith
  constructor
  · intro hsc
    by_cases hpass : ((g.obstacle.update dt).update dt).rectRight A.obsW < 0
    · rw [handlePlaying_health]
      rw [if_neg]
      intro hcontra
      exact hnocol hpass hcontra.2
    · rw [handlePlaying_score, if_neg hpass] at hsc
      omega
  · intro hh
    by_cases hpass : ((g.obstacle.update dt).update dt).rectRight A.obsW < 0
    · exfalso
      apply hh
      rw [handlePlaying_health, if_neg]
      intro hcontra
      exact hnocol hpass hcontra.2
    · rw [handlePlaying_score, if_neg hpass]

/-- Witness for C10 at a concrete input: a frame that awards the
pass-through point (obstacle already off-screen left) leaves health
untouched, with 50-pixel frames and a mask test that never fires. -/
theorem c10_witness :
    (handlePlaying noCollideAssets passGState [] 0
      (fun _ => 0)).player.health = passGState.player.health := by
  refine (c10_score_damage_exclusive noCollideAssets passGState [] 0
    (fun _ => 0) ?_ ?_).1 ?_
  · intro p
    unfold playerRectW noCollideAssets
    split <;> norm_num [GAME_WIDTH, PLAYER_START_X]
  · intro p o hc
    exact absurd hc (by simp [noCollideAssets])
  · rw [handlePlaying_score, if_pos]
    norm_num [passGState, noCollideAssets, Obstacle.update,
      Obstacle.rectRight, Obstacle.rectX, pyTrunc, FPS, Int.ceil_neg]

/-! ## Player ground/air invariant (C8) -/

theorem Player.update_lands (p : Player) (dt : ℚ)
    (hj : p.action = PAction.jumping) (hl : PLAYER_LAND_Y ≤ p.y + p.velY) :
    (p.update dt).y = PLAYER_LAND_Y ∧
    (p.update dt).action = PAction.running ∧
    (p.update dt).velY = 0 := by
  dsimp only [Player.update]
  rw [if_pos hj, if_pos hl]
  split_ifs <;> simp_all

theorem Player.update_airborne (p : Player) (dt : ℚ)
    (hj : p.action = PAction.jumping) (hl : ¬ PLAYER_LAND_Y ≤ p.y + p.velY) :
    (p.update dt).y = p.y + p.velY ∧
    (p.update dt).action = PAction.jumping ∧
    (p.update dt).velY = p.velY + PLAYER_GRAVITY := by
  dsimp only [Player.update]
  rw [if_pos hj, if_neg hl]
  split_ifs <;> simp_all

theorem Player.update_running (p : Player) (dt : ℚ)
    (hr : p.action = PAction.running) :
    (p.update dt).action = PAction.running ∧
    (p.update dt).y =
      (if p.y < PLAYER_LAND_Y then PLAYER_LAND_Y else p.y) := by
  have hj : ¬ p.action = PAction.jumping := by
    rw [hr]; exact fun hc => PAction.noConfusion hc
  dsimp only [Player.update]
  rw [if_neg hj]
  split_ifs <;> simp_all

theorem playerInv_init : PlayerInv Player.init :=
  ⟨fun _ => rfl, le_refl _⟩

theorem playerInv_jump (p : Player) (h : PlayerInv p) : PlayerInv p.jump := by
  unfold Player.jump
  split_ifs with ha
  · exact ⟨fun hc => PAction.noConfusion hc, by
      show p.y ≤ PLAYER_LAND_Y
      exact h.2⟩
  · exact h

theorem playerInv_update (p : Player) (dt : ℚ) (h : PlayerInv p) :
    PlayerInv (p.update dt) := by
  cases hact : p.action with
  | running =>
      obtain ⟨h1, h2⟩ := Player.update_running p dt hact
      constructor
      · intro _
        rw [h2, if_neg (by rw [h.1 hact]; exact lt_irrefl _)]
        exact h.1 hact
      · rw [h2]
        split_ifs with hy
        · exact le_refl _
        · exact h.2
  | jumping =>
      by_cases hl : PLAYER_LAND_Y ≤ p.y + p.velY
      · obtain ⟨h1, h2, h3⟩ := Player.update_lands p dt hact hl
        exact ⟨fun _ => h1, le_of_eq h1⟩
      · obtain ⟨h1, h2, h3⟩ := Player.update_airborne p dt hact hl
        constructor
        · intro hc
          rw [h2] at hc
          exact absurd hc (fun hc => PAction.noConfusion hc)
        · rw [h1]
          linarith [not_le.mp hl]

theorem playerReach_inv (p : Player) (hp : PlayerReach p) : PlayerInv p := by
  induction hp with
  | init => exact playerInv_init
  | jump q hq ih => exact playerInv_jump q ih
  | update q dt hq ih => exact playerInv_update q dt ih

/-- Claim C8: in every player state reachable through `jump()` and
`update()` from the initial state, running implies y equals the ground
level and jumping implies y is at or above the ground line
(`y ≤ PLAYER_LAND_Y`, y growing downward); and landing — y reaching or
passing `PLAYER_LAND_Y` during a jump update — clamps y to the ground,
resets the action to running and the vertical velocity to 0. -/
theorem c8_ground_invariant (p : Player) (hp : PlayerReach p) :
    (p.action = PAction.running → p.y = PLAYER_LAND_Y) ∧
    (p.action = PAction.jumping → p.y ≤ PLAYER_LAND_Y) ∧
    (∀ dt : ℚ, p.action = PAction.jumping →
      PLAYER_LAND_Y ≤ p.y + p.velY →
      (p.update dt).y = PLAYER_LAND_Y ∧
      (p.update dt).action = PAction.running ∧
      (p.update dt).velY = 0) := by
  have h := playerReach_inv p hp
  exact ⟨h.1, fun _ => h.2, fun dt hj hl => Player.update_lands p dt hj hl⟩

/-- Witness for C8: the initial player is running exactly on the ground. -/
theorem c8_witness : Player.init.y = PLAYER_LAND_Y :=
  (c8_ground_invariant Player.init PlayerReach.init).1 rfl

/-! ## Speed invariant (C2) -/

theorem speedInv_k_lt (k : ℕ) (hk : k ≤ 20)
    (hlt : STARTING_SPEED + SPEED_INCREASE_AMOUNT * (k : ℚ) < MAX_SPEED) :
    k < 20 := by
  rw [STARTING_SPEED, SPEED_INCREASE_AMOUNT, MAX_SPEED] at hlt
  have : (k : ℚ) < 20 := by linarith
  exact_mod_cast this

theorem speedInv_le_max (g : GState) (h : SpeedInv g) : g.speed ≤ MAX_SPEED := by
  obtain ⟨k, hk, hsp⟩ := h
  rw [hsp, STARTING_SPEED, SPEED_INCREASE_AMOUNT, MAX_SPEED]
  have : (k : ℚ) ≤ 20 := by exact_mod_cast hk
  linarith

theorem speedInv_min_eq (k : ℕ) (hk1 : k + 1 ≤ 20) :
    min MAX_SPEED (STARTING_SPEED + SPEED_INCREASE_AMOUNT * (k : ℚ) +
        SPEED_INCREASE_AMOUNT) =
      STARTING_SPEED + SPEED_INCREASE_AMOUNT * (k : ℚ) +
        SPEED_INCREASE_AMOUNT := by
  apply min_eq_right
  rw [STARTING_SPEED, SPEED_INCREASE_AMOUNT, MAX_SPEED]
  have : (k : ℚ) + 1 ≤ 20 := by exact_mod_cast hk1
  linarith

theorem preach_speedInv (A : Assets) (g : GState) (hg : PReach A g) :
    SpeedInv g := by
  induction hg with
  | start g0 draw =>
      refine ⟨0, by norm_num, ?_⟩
      show STARTING_SPEED = STARTING_SPEED + SPEED_INCREASE_AMOUNT * ((0:ℕ):ℚ)
      push_cast
      ring
  | step g ev dt rng hq ih =>
      obtain ⟨k, hk, hsp⟩ := ih
      have hs := handlePlaying_speed A g ev dt rng
      by_cases h : ((g.obstacle.update dt).update dt).rectRight A.obsW < 0 ∧
          ((g.score + 1) % SPEED_INCREASE_INTERVAL = 0 ∧ g.speed < MAX_SPEED)
      · have hklt : k < 20 := speedInv_k_lt k hk (by rw [← hsp]; exact h.2.2)
        refine ⟨k + 1, by omega, ?_⟩
        rw [hs, if_pos h, hsp, speedInv_min_eq k (by omega)]
        push_cast
        ring
      · exact ⟨k, hk, by rw [hs, if_neg h, hsp]⟩

/-- Claim C2: within a single session (from `reset_game()` under
`handle_playing` frames), the global speed is monotonically
non-decreasing on every frame; it increases by exactly
`SPEED_INCREASE_AMOUNT` precisely when a pass-through happens this
frame, the new score is a multiple of `SPEED_INCREASE_INTERVAL`, and the
speed is below `MAX_SPEED` (and is unchanged otherwise); it never
exceeds `MAX_SPEED`; and `reset_game()` sets it back to
`STARTING_SPEED`. -/
theorem c2_speed_ratchet (A : Assets) (g : GState) (hg : PReach A g) :
    g.speed ≤ MAX_SPEED ∧
    (∀ (g0 : GState) (draw : ℕ),
      (resetGame A g0 draw).speed = STARTING_SPEED) ∧
    ∀ (ev : List GEvent) (dt : ℚ) (rng : ℕ → ℕ),
      g.speed ≤ (handlePlaying A g ev dt rng).speed ∧
      (handlePlaying A g ev dt rng).speed ≤ MAX_SPEED ∧
      ((((g.obstacle.update dt).update dt).rectRight A.obsW < 0 ∧
        ((g.score + 1) % SPEED_INCREASE_INTERVAL = 0 ∧
          g.speed < MAX_SPEED)) →
        (handlePlaying A g ev dt rng).speed =
          g.speed + SPEED_INCREASE_AMOUNT) ∧
      (¬(((g.obstacle.update dt).update dt).rectRight A.obsW < 0 ∧
        ((g.score + 1) % SPEED_INCREASE_INTERVAL = 0 ∧
          g.speed < MAX_SPEED)) →
        (handlePlaying A g ev dt rng).speed = g.speed) := by
  have hinv := preach_speedInv A g hg
  refine ⟨speedInv_le_max g hinv, fun g0 draw => rfl, fun ev dt rng => ?_⟩
  obtain ⟨k, hk, hsp⟩ := hinv
  refine ⟨?_, ?_, ?_, ?_⟩
  · rw [handlePlaying_speed]
    split_ifs with h
    · refine le_min ?_ ?_
      · exact le_of_lt h.2.2
      · rw [SPEED_INCREASE_AMOUNT]; linarith
    · exact le_refl _
  · rw [handlePlaying_speed]
    split_ifs with h
    · exact min_le_left _ _
    · exact speedInv_le_max g ⟨k, hk, hsp⟩
  · intro h
    have hklt : k < 20 := speedInv_k_lt k hk (by rw [← hsp]; exact h.2.2)
    rw [handlePlaying_speed, if_pos h, hsp, speedInv_min_eq k (by omega)]
  · intro h
    rw [handlePlaying_speed, if_neg h]

/-- Witness for C2: the freshly-reset session state is at the cap's safe
side (`speed = 5 ≤ 13`). -/
theorem c2_witness :
    ({ resetGame collideAssets invPlayerState 0 with
        mode := GameMode.playing } : GState).speed ≤ MAX_SPEED :=
  (c2_speed_ratchet collideAssets _ (PReach.start invPlayerState 0)).1

/-! ## Health invariant and game-over behaviour (C1) -/

theorem foldlPres {α β : Type} (f : α → β → α) (P : α → Prop)
    (h : ∀ a b, P a → P (f a b)) :
    ∀ (l : List β) (a : α), P a → P (l.foldl f a) := by
  intro l
  induction l with
  | nil => intro a ha; exact ha
  | cons b l ih => intro a ha; exact ih _ (h a b ha)

theorem healthInv_mode_change (g : GState) (m : GameMode) (h : HealthInv g)
    (hm : (m = GameMode.playing ∨ m = GameMode.paused) →
      1 ≤ g.player.health) :
    HealthInv { g with mode := m } :=
  ⟨h.1, h.2.1, hm, h.2.2.2⟩

theorem healthInv_reset (A : Assets) (g0 : GState) (draw : ℕ) :
    HealthInv { resetGame A g0 draw with mode := GameMode.playing } := by
  refine ⟨?_, ?_, ?_, ?_⟩ <;>
    norm_num [resetGame, Player.init, PLAYER_START_HEALTH]

theorem mainMenuStep_inv (A : Assets) (rng : ℕ → ℕ) (s : GState × ℕ)
    (e : GEvent) (h : HealthInv s.1) :
    HealthInv (mainMenuStep A rng s e).1 := by
  cases e with
  | clickStart => exact healthInv_reset A s.1 (rng s.2)
  | clickHowTo =>
      exact healthInv_mode_change s.1 _ h
        (fun hc => by rcases hc with hc | hc <;> exact GameMode.noConfusion hc)
  | clickSettings =>
      exact healthInv_mode_change s.1 _ h
        (fun hc => by rcases hc with hc | hc <;> exact GameMode.noConfusion hc)
  | clickQuit => exact ⟨h.1, h.2.1, h.2.2.1, h.2.2.2⟩
  | _ => exact h

theorem instructionsStep_inv (g : GState) (e : GEvent) (h : HealthInv g) :
    HealthInv (instructionsStep g e) := by
  cases e with
  | clickBack =>
      exact healthInv_mode_change g _ h
        (fun hc => by rcases hc with hc | hc <;> exact GameMode.noConfusion hc)
  | keyEscape =>
      exact healthInv_mode_change g _ h
        (fun hc => by rcases hc with hc | hc <;> exact GameMode.noConfusion hc)
  | _ => exact h

theorem settingsStep_inv (musicOk : Bool) (g : GState) (e : GEvent)
    (h : HealthInv g) : HealthInv (settingsStep musicOk g e) := by
  cases e with
  | clickBack =>
      exact healthInv_mode_change g _ h
        (fun hc => by rcases hc with hc | hc <;> exact GameMode.noConfusion hc)
  | keyEscape =>
      exact healthInv_mode_change g _ h
        (fun hc => by rcases hc with hc | hc <;> exact GameMode.noConfusion hc)
  | clickVolMinus => exact ⟨h.1, h.2.1, h.2.2.1, h.2.2.2⟩
  | clickVolPlus => exact ⟨h.1, h.2.1, h.2.2.1, h.2.2.2⟩
  | clickTrack0 =>
      show HealthInv (switchMusicTrack musicOk g 0)
      unfold switchMusicTrack
      split_ifs with hc
      · exact ⟨h.1, h.2.1, h.2.2.1, h.2.2.2⟩
      · exact h
  | clickTrack1 =>
      show HealthInv (switchMusicTrack musicOk g 1)
      unfold switchMusicTrack
      split_ifs with hc
      · exact ⟨h.1, h.2.1, h.2.2.1, h.2.2.2⟩
      · exact h
  | _ => exact h

theorem pauseStep_inv (g : GState) (e : GEvent)
    (h : HealthInv g ∧ 1 ≤ g.player.health) :
    HealthInv (pauseStep g e) ∧ 1 ≤ (pauseStep g e).player.health := by
  cases e with
  | keyEscape => exact ⟨⟨h.1.1, h.1.2.1, fun _ => h.2, h.1.2.2.2⟩, h.2⟩
  | clickResume => exact ⟨⟨h.1.1, h.1.2.1, fun _ => h.2, h.1.2.2.2⟩, h.2⟩
  | clickMenu =>
      exact ⟨healthInv_mode_change g _ h.1
        (fun hc => by rcases hc with hc | hc <;> exact GameMode.noConfusion hc),
        h.2⟩
  | clickQuit => exact ⟨⟨h.1.1, h.1.2.1, h.1.2.2.1, h.1.2.2.2⟩, h.2⟩
  | _ => exact h

theorem gameOverStep_inv (A : Assets) (rng : ℕ → ℕ) (s : GState × ℕ)
    (e : GEvent) (h : HealthInv s.1) :
    HealthInv (gameOverStep A rng s e).1 := by
  cases e with
  | clickRetry => exact healthInv_reset A s.1 (rng s.2)
  | clickMenu =>
      exact healthInv_mode_change s.1 _ h
        (fun hc => by rcases hc with hc | hc <;> exact GameMode.noConfusion hc)
  | _ => exact h

theorem handlePlaying_dead_mode (A : Assets) (g : GState) (ev : List GEvent)
    (dt : ℚ) (rng : ℕ → ℕ) (h1 : 1 ≤ g.player.health)
    (hd : (handlePlaying A g ev dt rng).player.health ≤ 0) :
    (handlePlaying A g ev dt rng).mode = GameMode.gameOver := by
  rw [handlePlaying_health] at hd
  unfold handlePlaying
  rw [playCollide_mode]
  by_cases hcond : (playPre A g ev dt (rng 0)).player.invincibilityFrame ≤ 0 ∧
      A.collideMask (playPre A g ev dt (rng 0)).player
        (playPre A g ev dt (rng 0)).obstacle = true
  · rw [if_pos ⟨hcond.1, hcond.2, by rw [playPre_health]; rw [if_pos hcond] at hd; omega⟩]
  · rw [if_neg hcond] at hd
    omega

theorem handlePlaying_healthInv (A : Assets) (g : GState) (ev : List GEvent)
    (dt : ℚ) (rng : ℕ → ℕ) (h1 : 1 ≤ g.player.health)
    (h3 : g.player.health ≤ PLAYER_START_HEALTH)
    (hi : 0 ≤ g.player.invincibilityFrame) :
    HealthInv (handlePlaying A g ev dt rng) := by
  have hh := handlePlaying_health A g ev dt rng
  have hiv : 0 ≤ (handlePlaying A g ev dt rng).player.invincibilityFrame := by
    unfold handlePlaying
    rw [playCollide_invFrame]
    split_ifs with hc
    · norm_num [PLAYER_INVINCIBILITY_DURATION]
    · rw [playPre_invFrame]
      split_ifs <;> omega
  rw [PLAYER_START_HEALTH] at h3
  refine ⟨?_, ?_, ?_, hiv⟩
  · rw [hh]; split_ifs <;> omega
  · rw [PLAYER_START_HEALTH, hh]; split_ifs <;> omega
  · intro hm
    by_cases hd : (handlePlaying A g ev dt rng).player.health ≤ 0
    · exfalso
      have := handlePlaying_dead_mode A g ev dt rng h1 hd
      rcases hm with hm | hm <;> rw [hm] at this <;> exact GameMode.noConfusion this
    · omega

theorem healthInv_quitAdjust (g : GState) (ev : List GEvent)
    (h : HealthInv g) :
    HealthInv (if ev.any isQuitEvent then { g with quitFlag := true } else g) := by
  split_ifs
  · exact ⟨h.1, h.2.1, h.2.2.1, h.2.2.2⟩
  · exact h

theorem topStep_healthInv (A : Assets) (g : GState) (ev : List GEvent)
    (dt : ℚ) (rng : ℕ → ℕ) (h : HealthInv g) :
    HealthInv (topStep A g ev dt rng) := by
  unfold topStep
  have h1 := healthInv_quitAdjust g ev h
  set g1 := if ev.any isQuitEvent then { g with quitFlag := true } else g with hg1
  cases hmode : g1.mode with
  | mainMenu =>
      simp only [hmode]
      exact foldlPres _ (fun s => HealthInv s.1)
        (fun s e hs => mainMenuStep_inv A rng s e hs) ev (g1, 0) h1
  | instructions =>
      simp only [hmode]
      exact foldlPres _ HealthInv (fun s e hs => instructionsStep_inv s e hs)
        ev g1 h1
  | settings =>
      simp only [hmode]
      exact foldlPres _ HealthInv
        (fun s e hs => settingsStep_inv A.musicOk s e hs) ev g1 h1
  | playing =>
      simp only [hmode]
      exact handlePlaying_healthInv A g1 ev dt rng
        (h1.2.2.1 (Or.inl hmode)) h1.2.1 h1.2.2.2
  | paused =>
      simp only [hmode]
      exact (foldlPres _ (fun s => HealthInv s ∧ 1 ≤ s.player.health)
        (fun s e hs => pauseStep_inv s e hs) ev g1
        ⟨h1, h1.2.2.1 (Or.inr hmode)⟩).1
  | gameOver =>
      simp only [hmode]
      exact foldlPres _ (fun s => HealthInv s.1)
        (fun s e hs => gameOverStep_inv A rng s e hs) ev (g1, 0) h1

theorem reachable_healthInv (A : Assets) (g : GState)
    (hg : Reachable A g) : HealthInv g := by
  induction hg with
  | start g0 draw => exact healthInv_reset A g0 draw
  | step g ev dt rng hq hdt ih => exact topStep_healthInv A g ev dt rng ih

theorem topStep_eq_playing (A : Assets) (g : GState) (ev : List GEvent)
    (dt : ℚ) (rng : ℕ → ℕ) (hm : g.mode = GameMode.playing) :
    topStep A g ev dt rng = handlePlaying A
      (if ev.any isQuitEvent then { g with quitFlag := true } else g)
      ev dt rng := by
  unfold topStep
  set g1 := if ev.any isQuitEvent then { g with quitFlag := true } else g
    with hg1
  have hmode : g1.mode = GameMode.playing := by
    rw [hg1]; split_ifs <;> exact hm
  simp only [hmode]

theorem topStep_eq_gameOver (A : Assets) (g : GState) (ev : List GEvent)
    (dt : ℚ) (rng : ℕ → ℕ) (hm : g.mode = GameMode.gameOver) :
    topStep A g ev dt rng = handleGameOver A
      (if ev.any isQuitEvent then { g with quitFlag := true } else g)
      ev rng := by
  unfold topStep
  set g1 := if ev.any isQuitEvent then { g with quitFlag := true } else g
    with hg1
  have hmode : g1.mode = GameMode.gameOver := by
    rw [hg1]; split_ifs <;> exact hm
  simp only [hmode]

theorem foldlNoop {α β : Type} (f : α → β → α) (P : β → Prop)
    (hf : ∀ a b, P b → f a b = a) :
    ∀ (l : List β), (∀ b ∈ l, P b) → ∀ a, l.foldl f a = a := by
  intro l
  induction l with
  | nil => intro _ a; rfl
  | cons b l ih =>
      intro hl a
      rw [List.foldl_cons, hf a b (hl b (List.mem_cons_self b l))]
      exact ih (fun x hx => hl x (List.mem_cons_of_mem b hx)) a

theorem gameOverStep_noop (A : Assets) (rng : ℕ → ℕ) (s : GState × ℕ)
    (e : GEvent) (h1 : e ≠ GEvent.clickRetry) (h2 : e ≠ GEvent.clickMenu) :
    gameOverStep A rng s e = s := by
  cases e <;> first
    | rfl
    | exact absurd rfl h1
    | exact absurd rfl h2

theorem handleGameOver_noop (A : Assets) (g : GState) (ev : List GEvent)
    (rng : ℕ → ℕ) (h1 : GEvent.clickRetry ∉ ev)
    (h2 : GEvent.clickMenu ∉ ev) : handleGameOver A g ev rng = g := by
  unfold handleGameOver
  rw [foldlNoop (gameOverStep A rng)
    (fun e => e ≠ GEvent.clickRetry ∧ e ≠ GEvent.clickMenu)
    (fun s e he => gameOverStep_noop A rng s e he.1 he.2) ev
    (fun e he => ⟨fun hc => h1 (hc ▸ he), fun hc => h2 (hc ▸ he)⟩) (g, 0)]

/-- Claim C1: in every state reachable in a game session started by
`reset_game()`, the player's health lies in `[0, PLAYER_START_HEALTH]`;
whenever a frame drives health to 0 from a playing state, the mode is
`gameOver` at the end of that same resolver pass; and once in game over,
frames whose events contain neither a Retry click nor a Main-Menu click
leave the whole session state (mode, player, score, speed, obstacle)
untouched — playing-state updates no longer run. -/
theorem c1_health_bounds_and_gameover (A : Assets) (g : GState)
    (hg : Reachable A g) :
    (0 ≤ g.player.health ∧ g.player.health ≤ PLAYER_START_HEALTH) ∧
    (g.mode = GameMode.playing →
      ∀ (ev : List GEvent) (dt : ℚ) (rng : ℕ → ℕ),
        (topStep A g ev dt rng).player.health ≤ 0 →
        (topStep A g ev dt rng).mode = GameMode.gameOver) ∧
    (g.mode = GameMode.gameOver →
      ∀ (ev : List GEvent) (dt : ℚ) (rng : ℕ → ℕ),
        GEvent.clickRetry ∉ ev → GEvent.clickMenu ∉ ev →
        (topStep A g ev dt rng).mode = GameMode.gameOver ∧
        (topStep A g ev dt rng).player = g.player ∧
        (topStep A g ev dt rng).score = g.score ∧
        (topStep A g ev dt rng).speed = g.speed ∧
        (topStep A g ev dt rng).obstacle = g.obstacle) := by
  have hinv := reachable_healthInv A g hg
  refine ⟨⟨hinv.1, hinv.2.1⟩, ?_, ?_⟩
  · intro hm ev dt rng hd
    rw [topStep_eq_playing A g ev dt rng hm] at hd ⊢
    apply handlePlaying_dead_mode _ _ _ _ _ _ hd
    split_ifs
    · exact hinv.2.2.1 (Or.inl hm)
    · exact hinv.2.2.1 (Or.inl hm)
  · intro hm ev dt rng h1 h2
    have heq : topStep A g ev dt rng =
        (if ev.any isQuitEvent then { g with quitFlag := true } else g) := by
      rw [topStep_eq_gameOver A g ev dt rng hm]
      exact handleGameOver_noop A _ ev rng h1 h2
    rw [heq]
    split_ifs <;> exact ⟨hm, rfl, rfl, rfl, rfl⟩

/-- Witness for C1: a freshly started session is reachable and has full
health within bounds. -/
theorem c1_witness :
    0 ≤ ({ resetGame collideAssets invPlayerState 1 with
        mode := GameMode.playing } : GState).player.health ∧
    ({ resetGame collideAssets invPlayerState 1 with
        mode := GameMode.playing } : GState).player.health ≤
      PLAYER_START_HEALTH :=
  (c1_health_bounds_and_gameover collideAssets _
    (Reachable.start invPlayerState 1)).1

/-! ## Parallax offset bounds (C7) -/

theorem updateParallax_length (offsets : List ℚ) (widths : List ℤ)
    (sp dt : ℚ) :
    (updateParallax offsets widths sp dt).length = widths.length := by
  unfold updateParallax
  exact List.length_ofFn _

theorem updateParallax_getD (offsets : List ℚ) (widths : List ℤ)
    (sp dt : ℚ) (i : ℕ) (hi : i < widths.length)
    (hoff : i < offsets.length) :
    (updateParallax offsets widths sp dt).getD i 0 =
      (if offsets.getD i 0 - ((i : ℚ) + 10) * sp * 3 * dt ≤
          -((widths.getD i 0 : ℤ) : ℚ)
       then offsets.getD i 0 - ((i : ℚ) + 10) * sp * 3 * dt +
          ((widths.getD i 0 : ℤ) : ℚ)
       else offsets.getD i 0 - ((i : ℚ) + 10) * sp * 3 * dt) := by
  have hlen : i < (updateParallax offsets widths sp dt).length := by
    rw [updateParallax_length]; exact hi
  rw [List.getD_eq_getElem _ _ hlen]
  unfold updateParallax
  rw [List.getElem_ofFn]
  rw [dif_pos hoff]
  dsimp only
  rw [show offsets.get ⟨i, hoff⟩ = offsets.getD i 0 from by
    rw [List.get_eq_getElem, List.getD_eq_getElem _ _ hoff]]
  rw [show widths.get ⟨i, hi⟩ = widths.getD i 0 from by
    rw [List.get_eq_getElem, List.getD_eq_getElem _ _ hi]]

theorem updateParallaxV2_length (offsets : List ℚ) (widths : List ℤ)
    (sp dt : ℚ) :
    (updateParallaxV2 offsets widths sp dt).length = widths.length := by
  unfold updateParallaxV2
  exact List.length_ofFn _

theorem updateParallaxV2_getD (offsets : List ℚ) (widths : List ℤ)
    (sp dt : ℚ) (i : ℕ) (hi : i < widths.length) :
    (updateParallaxV2 offsets widths sp dt).getD i 0 =
      if h : i < offsets.length then
        (if ((widths.getD i 0 : ℤ) : ℚ) <
            |offsets.getD i 0 - ((i : ℚ) + 1) * sp * 0.5 * dt|
         then 0
         else offsets.getD i 0 - ((i : ℚ) + 1) * sp * 0.5 * dt)
      else 0 := by
  have hlen : i < (updateParallaxV2 offsets widths sp dt).length := by
    rw [updateParallaxV2_length]; exact hi
  rw [List.getD_eq_getElem _ _ hlen]
  unfold updateParallaxV2
  rw [List.getElem_ofFn]
  by_cases hoff : i < offsets.length
  · rw [dif_pos hoff, dif_pos hoff]
    dsimp only
    rw [show offsets.get ⟨i, hoff⟩ = offsets.getD i 0 from by
      rw [List.get_eq_getElem, List.getD_eq_getElem _ _ hoff]]
    rw [show widths.get ⟨i, hi⟩ = widths.getD i 0 from by
      rw [List.get_eq_getElem, List.getD_eq_getElem _ _ hi]]
  · rw [dif_neg hoff, dif_neg hoff]

theorem parallax_cell_bound (off scroll w : ℚ) (hw : 0 ≤ w)
    (hoff1 : -w ≤ off) (hoff2 : off ≤ 0) (hs1 : 0 ≤ scroll)
    (hs2 : scroll ≤ w) :
    -w ≤ (if off - scroll ≤ -w then off - scroll + w else off - scroll) ∧
    (if off - scroll ≤ -w then off - scroll + w else off - scroll) ≤ 0 := by
  split_ifs with h <;> constructor <;> linarith

theorem offsInv_init (widths : List ℤ)
    (hw : ∀ i, i < widths.length → (0 : ℤ) ≤ widths.getD i 0) :
    OffsInv widths (List.replicate widths.length 0) := by
  refine ⟨List.length_replicate _ _, fun i hi => ?_⟩
  have h0 : (List.replicate widths.length (0 : ℚ)).getD i 0 = 0 := by
    rw [List.getD_eq_getElem _ _ (by simpa using hi)]
    simp
  rw [h0]
  have := hw i hi
  constructor
  · have : ((widths.getD i 0 : ℤ) : ℚ) ≥ 0 := by exact_mod_cast this
    linarith
  · exact le_refl _

theorem offsInv_step (widths : List ℤ)
    (hw : ∀ i, i < widths.length → (0 : ℤ) ≤ widths.getD i 0)
    (offs : List ℚ) (sp dt : ℚ) (h : OffsInv widths offs)
    (hc : ∀ i, i < widths.length →
      0 ≤ ((i : ℚ) + 10) * sp * 3 * dt ∧
      ((i : ℚ) + 10) * sp * 3 * dt ≤ ((widths.getD i 0 : ℤ) : ℚ)) :
    OffsInv widths (updateParallax offs widths sp dt) := by
  refine ⟨updateParallax_length offs widths sp dt, fun i hi => ?_⟩
  rw [updateParallax_getD offs widths sp dt i hi (by rw [h.1]; exact hi)]
  exact parallax_cell_bound (offs.getD i 0) _ _
    (by exact_mod_cast hw i hi) (h.2 i hi).1 (h.2 i hi).2
    (hc i hi).1 (hc i hi).2

theorem parallaxRun_inv (widths : List ℤ)
    (hw : ∀ i, i < widths.length → (0 : ℤ) ≤ widths.getD i 0)
    (calls : List (ℚ × ℚ))
    (hc : ∀ c ∈ calls, ∀ i, i < widths.length →
      0 ≤ ((i : ℚ) + 10) * c.1 * 3 * c.2 ∧
      ((i : ℚ) + 10) * c.1 * 3 * c.2 ≤ ((widths.getD i 0 : ℤ) : ℚ)) :
    OffsInv widths (parallaxRun widths calls) := by
  unfold parallaxRun
  suffices hgen : ∀ (cs : List (ℚ × ℚ)),
      (∀ c ∈ cs, ∀ i, i < widths.length →
        0 ≤ ((i : ℚ) + 10) * c.1 * 3 * c.2 ∧
        ((i : ℚ) + 10) * c.1 * 3 * c.2 ≤ ((widths.getD i 0 : ℤ) : ℚ)) →
      ∀ offs, OffsInv widths offs →
      OffsInv widths (cs.foldl
        (fun offs c => updateParallax offs widths c.1 c.2) offs) by
    exact hgen calls hc _ (offsInv_init widths hw)
  intro cs
  induction cs with
  | nil => intro _ offs hoffs; exact hoffs
  | cons c cs ih =>
      intro hcs offs hoffs
      rw [List.foldl_cons]
      exact ih (fun x hx => hcs x (List.mem_cons_of_mem c hx)) _
        (offsInv_step widths hw offs c.1 c.2 hoffs
          (hcs c (List.mem_cons_self c cs)))

/-- Claim C7 (corrected): the offset is NOT confined to
`[-layerWidth, layerWidth]` for arbitrary `Δt ≥ 0`: one
`update_parallax` call from the reset offset 0, with speed 5 and
`Δt = 2`, drives a 100-pixel layer's offset to `-200`, strictly below
`-layerWidth` (the wrap adds the width only once). -/
theorem c7_counterexample :
    updateParallax [0] [100] 5 2 = [-200] ∧
    ((-200 : ℚ) < -((100 : ℤ) : ℚ)) := by
  constructor
  · norm_num [updateParallax, List.ofFn_succ, List.ofFn_zero]
  · norm_num

/-- Claim C7 (amended): starting from the reset offsets (all 0), every
layer offset of the 05-13-25 `update_parallax` stays within
`[-layerWidth_i, layerWidth_i]` (indeed within `[-layerWidth_i, 0]`)
over arbitrarily many calls, provided each call's per-layer scroll
amount `(i + 10) * speed * 3 * Δt` is nonnegative and at most the
layer's width — as holds for the game's frame steps; and the other
variant's `update_parallax` (reset-to-0 wrap, `updateParallaxV2`) keeps
every offset within `[-layerWidth_i, layerWidth_i]` after any single
call from any offsets whatsoever. -/
theorem c7_parallax_bounded (widths : List ℤ)
    (hw : ∀ i, i < widths.length → (0 : ℤ) ≤ widths.getD i 0)
    (calls : List (ℚ × ℚ))
    (hc : ∀ c ∈ calls, ∀ i, i < widths.length →
      0 ≤ ((i : ℚ) + 10) * c.1 * 3 * c.2 ∧
      ((i : ℚ) + 10) * c.1 * 3 * c.2 ≤ ((widths.getD i 0 : ℤ) : ℚ)) :
    (∀ i, i < widths.length →
      -((widths.getD i 0 : ℤ) : ℚ) ≤ (parallaxRun widths calls).getD i 0 ∧
      (parallaxRun widths calls).getD i 0 ≤ ((widths.getD i 0 : ℤ) : ℚ)) ∧
    (∀ (offsets : List ℚ) (sp dt : ℚ) (i : ℕ), i < widths.length →
      -((widths.getD i 0 : ℤ) : ℚ) ≤
        (updateParallaxV2 offsets widths sp dt).getD i 0 ∧
      (updateParallaxV2 offsets widths sp dt).getD i 0 ≤
        ((widths.getD i 0 : ℤ) : ℚ)) := by
  constructor
  · intro i hi
    have h := (parallaxRun_inv widths hw calls hc).2 i hi
    have h0 : (0 : ℚ) ≤ ((widths.getD i 0 : ℤ) : ℚ) := by
      exact_mod_cast hw i hi
    exact ⟨h.1, le_trans h.2 h0⟩
  · intro offsets sp dt i hi
    have h0 : (0 : ℚ) ≤ ((widths.getD i 0 : ℤ) : ℚ) := by
      exact_mod_cast hw i hi
    rw [updateParallaxV2_getD offsets widths sp dt i hi]
    split_ifs with hoff habs
    · constructor <;> linarith
    · have := abs_le.mp (le_of_not_lt habs)
      exact ⟨this.1, this.2⟩
    · constructor <;> linarith

/-- Witness for C7 (amended): one frame at speed 5, `Δt = 1/6`, scroll
amount 25 on a 100-pixel layer keeps the offset within bounds. -/
theorem c7_witness :
    -(((100 : ℤ) : ℚ)) ≤ (parallaxRun [100] [(5, 1/6)]).getD 0 0 ∧
    (parallaxRun [100] [(5, 1/6)]).getD 0 0 ≤ ((100 : ℤ) : ℚ) := by
  refine (c7_parallax_bounded [100] ?_ [(5, 1/6)] ?_).1 0 (by norm_num)
  · intro i hi
    have : i = 0 := by simpa using hi
    subst this
    norm_num
  · intro c hcmem i hi
    have hi0 : i = 0 := by simpa using hi
    subst hi0
    have hc0 : c = (5, 1/6) := by simpa using hcmem
    subst hc0
    norm_num
